import Mathlib

/-!
Verification of `web/scripts/sync_zh_locale.py` (zeroclaw repository).

The script synchronizes `zh-CN.json` with `en.json`: for each key of the
source mapping (iterated in sorted order) it either applies a static
override, reuses the existing translation when the snapshot shows the
source text unchanged, or calls Google Translate with bounded retries.
It then writes the new target mapping and the new snapshot.

JSON objects are modelled as association lists `List (String × String)`
(a Python dict of strings; the keys of a dict are pairwise distinct, which
appears as a `Nodup` hypothesis where a proof needs it).  File and network
I/O is factored out: the engine takes the three loaded mappings and the
translation function as arguments, and the per-attempt network outcome of
the translation client is a parameter `Nat → AttemptOutcome`.
-/

namespace ZhSync

/-- Model of Python `str.strip()` on the character list: drop leading and
trailing whitespace. -/
def stripChars (l : List Char) : List Char :=
  ((l.dropWhile Char.isWhitespace).reverse.dropWhile Char.isWhitespace).reverse

/-- Model of Python `str.strip()` (no arguments): remove leading and trailing
whitespace characters. -/
def pyStrip (s : String) : String :=
  String.mk (stripChars s.data)

/-- A Python/JSON value as far as `google_translate_en_to_zh` inspects it:
the code only distinguishes strings, lists and everything else
(via `isinstance` checks). -/
inductive PyJson where
  | str (s : String)
  | list (items : List PyJson)
  | other
deriving Repr

/-- Outcome of one network attempt inside the retry loop of
`google_translate_en_to_zh`: either an exception was raised somewhere in
`urlopen`/`read`/`decode`/`json.loads`, or a decoded JSON payload was
obtained. -/
inductive AttemptOutcome where
  | raised (error : String)
  | payload (p : PyJson)
deriving Repr

/-- The payload-processing part of one loop iteration of
`google_translate_en_to_zh` (source lines 70-80): if the payload is a
non-empty list whose first element is a list, join the first string of every
list-shaped part, strip it, and return it when non-empty; in every other
case the iteration falls through to the next attempt. -/
def extractTranslated (payload : PyJson) : Option String :=
  match payload with
  | PyJson.list (firstSeg :: _) =>
      match firstSeg with
      | PyJson.list parts =>
          let translated := pyStrip (String.join (parts.filterMap (fun part =>
              match part with
              | PyJson.list (PyJson.str s :: _) => some s
              | _ => none)))
          if translated == "" then none else some translated
      | _ => none
  | _ => none

/-- The `for attempt in range(3)` retry loop of `google_translate_en_to_zh`
(source lines 68-87), with the `time.sleep` backoff and the warning print
elided: a raised exception or an unusable payload moves on to the next
attempt, and after the last attempt the original text is returned. -/
def googleTranslateLoop (text : String) : List AttemptOutcome → String
  | [] => text
  | outcome :: rest =>
      match outcome with
      | AttemptOutcome.raised _ => googleTranslateLoop text rest
      | AttemptOutcome.payload p =>
          match extractTranslated p with
          | some translated => translated
          | none => googleTranslateLoop text rest

/-- `google_translate_en_to_zh(text)` (source lines 55-89): blank text is
returned unchanged with no network attempt; otherwise up to 3 attempts are
made and on total failure the original text is returned.  `attempts i` is
the outcome of the `i`-th network attempt.  The Lean function is total, so
by construction no exception escapes the client. -/
def google_translate_en_to_zh (attempts : Nat → AttemptOutcome) (text : String) : String :=
  if pyStrip text == "" then text
  else googleTranslateLoop text [attempts 0, attempts 1, attempts 2]

/-- `KEY_OVERRIDES` (source lines 23-43), in source order. -/
def KEY_OVERRIDES : List (String × String) :=
  [("auth.pair_button", "配对"),
   ("common.actions", "操作"),
   ("common.name", "名称"),
   ("common.save", "保存"),
   ("common.status", "状态"),
   ("cost.request_count", "请求数"),
   ("cost.requests", "请求数"),
   ("cron.enable", "启用"),
   ("dashboard.status", "状态"),
   ("health.component", "组件"),
   ("health.status", "状态"),
   ("integrations.active", "已启用"),
   ("integrations.available", "可用"),
   ("integrations.status", "状态"),
   ("memory.key", "键"),
   ("nav.agent", "助手"),
   ("nav.doctor", "诊断"),
   ("nav.memory", "记忆库"),
   ("tools.name", "名称")]

/-- The reuse test of source line 111:
`isinstance(current_zh, str) and current_zh.strip() and previous_source == en_value`.
In the string-valued model `current_zh` is a string exactly when the lookup
succeeded, `current_zh.strip()` is truthy exactly when the strip is
non-empty, and `previous_source == en_value` compares an optional previous
value with the current source value (Python `None == str` is `False`). -/
def reuseCondition (current_zh previous_source : Option String) (en_value : String) : Bool :=
  match current_zh with
  | some current => !(pyStrip current == "") && (previous_source == some en_value)
  | none => false

/-- State threaded through the `for key in sorted(en.keys())` loop of `main`
(source lines 97-124): the two output dicts built up in insertion order and
the two counters.  `calls` is a ghost log, absent from the Python, recording
the keys for which `google_translate_en_to_zh` was invoked; it exists only
so that claims about translation calls can be stated. -/
structure SyncState where
  zh_next : List (String × String)
  meta_next : List (String × String)
  reused_count : Nat
  translated_count : Nat
  calls : List String
deriving Repr, DecidableEq

/-- One iteration of the loop body of `main` (source lines 103-124):
override check, reuse check, then translate with the `translated or en_value`
fallback. -/
def processKey (tr : String → String) (zh_existing meta_existing : List (String × String))
    (st : SyncState) (key en_value : String) : SyncState :=
  match List.lookup key KEY_OVERRIDES with
  | some override =>
      { st with zh_next := st.zh_next ++ [(key, override)],
                meta_next := st.meta_next ++ [(key, en_value)],
                reused_count := st.reused_count + 1 }
  | none =>
      let current_zh := List.lookup key zh_existing
      let previous_source := List.lookup key meta_existing
      if reuseCondition current_zh previous_source en_value then
        { st with zh_next := st.zh_next ++ [(key, current_zh.getD "")],
                  meta_next := st.meta_next ++ [(key, en_value)],
                  reused_count := st.reused_count + 1 }
      else
        let translated := tr en_value
        { st with zh_next := st.zh_next ++ [(key, if translated == "" then en_value else translated)],
                  meta_next := st.meta_next ++ [(key, en_value)],
                  translated_count := st.translated_count + 1,
                  calls := st.calls ++ [key] }

/-- The loop of `main` over the remaining sorted entries. -/
def runLoop (tr : String → String) (zh_existing meta_existing : List (String × String)) :
    List (String × String) → SyncState → SyncState
  | [], st => st
  | (key, en_value) :: rest, st =>
      runLoop tr zh_existing meta_existing rest
        (processKey tr zh_existing meta_existing st key en_value)

/-- Ordering of source entries by key. -/
def entryLE (a b : String × String) : Prop :=
  a.1 ≤ b.1

instance : DecidableRel entryLE :=
  fun a b => inferInstanceAs (Decidable (a.1 ≤ b.1))

instance : IsTotal (String × String) entryLE :=
  ⟨fun a b => le_total a.1 b.1⟩

instance : IsTrans (String × String) entryLE :=
  ⟨fun _ _ _ h1 h2 => le_trans h1 h2⟩

/-- `for key in sorted(en.keys()): en_value = en[key]` (source lines 102-103):
since the keys of a dict are distinct, iterating the sorted keys and looking
each one up is iterating the entry list sorted by key. -/
def sortedEntries (en : List (String × String)) : List (String × String) :=
  List.insertionSort entryLE en

/-- The empty accumulators and counters of source lines 97-101. -/
def initialState : SyncState :=
  { zh_next := [], meta_next := [], reused_count := 0, translated_count := 0, calls := [] }

/-- A full run of the sync engine of `main` (source lines 92-124) on already
loaded mappings `en`, `zh_existing`, `meta_existing`, with `tr` the
translation function (`google_translate_en_to_zh` in the script). -/
def run (tr : String → String) (en zh_existing meta_existing : List (String × String)) : SyncState :=
  runLoop tr zh_existing meta_existing (sortedEntries en) initialState

/-- The target value the loop body settles on for one key: override text,
else reused existing value, else translation result with the
`translated or en_value` fallback.  This is a read-off of `processKey`,
proved equal to it in `processKey_eq`. -/
def zhValue (tr : String → String) (zh_existing meta_existing : List (String × String))
    (key en_value : String) : String :=
  match List.lookup key KEY_OVERRIDES with
  | some override => override
  | none =>
      if reuseCondition (List.lookup key zh_existing) (List.lookup key meta_existing) en_value then
        (List.lookup key zh_existing).getD ""
      else
        if tr en_value == "" then en_value else tr en_value

/-- Whether the loop body takes the translate branch for one key. -/
def isTranslatedKey (zh_existing meta_existing : List (String × String))
    (key en_value : String) : Bool :=
  match List.lookup key KEY_OVERRIDES with
  | some _ => false
  | none =>
      !(reuseCondition (List.lookup key zh_existing) (List.lookup key meta_existing) en_value)

/-- An attempt fails when it raised or its payload yields no usable text. -/
def attemptFails (o : AttemptOutcome) : Bool :=
  match o with
  | AttemptOutcome.raised _ => true
  | AttemptOutcome.payload p => (extractTranslated p).isNone

/-- The client either hands the text back unchanged, or returns a stripped,
non-empty translation. -/
def ClientLike (tr : String → String) : Prop :=
  ∀ t, tr t = t ∨ (pyStrip (tr t) = tr t ∧ tr t ≠ "")

/-! Model of the save step (source lines 126-129):
`json.dumps(mapping, ensure_ascii=False, indent=2) + "\n"`, written to the
file.  `json.dumps` emits the entries in dict insertion order (the loop
inserted them in sorted key order); with `indent=2` a non-empty object has
one `"key": "value"` pair per line and the empty object prints as a bare
brace pair. -/

def hexDigitChar (n : Nat) : Char :=
  if n < 10 then Char.ofNat (Char.toNat '0' + n) else Char.ofNat (Char.toNat 'a' + n - 10)

/-- JSON string escaping with `ensure_ascii=False`: non-ASCII characters are
emitted literally; quotes, backslashes and control characters are escaped. -/
def jsonEscapeChar (c : Char) : String :=
  if c = '"' then "\\\""
  else if c = '\\' then "\\\\"
  else if c = '\n' then "\\n"
  else if c = '\t' then "\\t"
  else if c = '\r' then "\\r"
  else if c = Char.ofNat 8 then "\\b"
  else if c = Char.ofNat 12 then "\\f"
  else if c.toNat < 32 then
    "\\u00" ++ String.mk [hexDigitChar (c.toNat / 16), hexDigitChar (c.toNat % 16)]
  else String.singleton c

def jsonQuote (s : String) : String :=
  "\"" ++ String.join (s.data.map jsonEscapeChar) ++ "\""

def jsonDumpsIndent2 (m : List (String × String)) : String :=
  match m with
  | [] => "\x7b\x7d"
  | _ =>
      "\x7b\n" ++
        String.intercalate ",\n"
          (m.map (fun kv => "  " ++ jsonQuote kv.1 ++ ": " ++ jsonQuote kv.2)) ++
        "\n\x7d"

/-- The exact text handed to `write_text` for one output document. -/
def saveText (m : List (String × String)) : String :=
  jsonDumpsIndent2 m ++ "\n"

theorem processKey_eq (tr : String → String) (zh_existing meta_existing : List (String × String))
    (st : SyncState) (key en_value : String) :
    processKey tr zh_existing meta_existing st key en_value =
      { zh_next := st.zh_next ++ [(key, zhValue tr zh_existing meta_existing key en_value)],
        meta_next := st.meta_next ++ [(key, en_value)],
        reused_count := st.reused_count +
          (if isTranslatedKey zh_existing meta_existing key en_value then 0 else 1),
        translated_count := st.translated_count +
          (if isTranslatedKey zh_existing meta_existing key en_value then 1 else 0),
        calls := st.calls ++
          (if isTranslatedKey zh_existing meta_existing key en_value then [key] else []) } := by
  unfold processKey zhValue isTranslatedKey
  cases h : List.lookup key KEY_OVERRIDES with
  | some override => simp
  | none =>
      cases hr : reuseCondition (List.lookup key zh_existing)
          (List.lookup key meta_existing) en_value <;> simp [hr]

/-- Closed form of the whole loop: outputs are the per-key values in entry
order, the snapshot is the entry list itself, the counters count the two
branches, and the call log lists the translated keys. -/
theorem runLoop_spec (tr : String → String) (zh_existing meta_existing : List (String × String)) :
    ∀ (entries : List (String × String)) (st : SyncState),
      runLoop tr zh_existing meta_existing entries st =
        { zh_next := st.zh_next ++
            entries.map (fun kv => (kv.1, zhValue tr zh_existing meta_existing kv.1 kv.2)),
          meta_next := st.meta_next ++ entries,
          reused_count := st.reused_count +
            (entries.filter (fun kv => !(isTranslatedKey zh_existing meta_existing kv.1 kv.2))).length,
          translated_count := st.translated_count +
            (entries.filter (fun kv => isTranslatedKey zh_existing meta_existing kv.1 kv.2)).length,
          calls := st.calls ++
            ((entries.filter (fun kv => isTranslatedKey zh_existing meta_existing kv.1 kv.2)).map
              Prod.fst) } := by
  intro entries
  induction entries with
  | nil => intro st; simp [runLoop]
  | cons kv rest ih =>
      intro st
      obtain ⟨key, en_value⟩ := kv
      rw [runLoop, ih, processKey_eq]
      cases h : isTranslatedKey zh_existing meta_existing key en_value <;>
        simp [h, List.filter_cons] <;> omega

/-- Closed form of a full run. -/
theorem run_spec (tr : String → String) (en zh_existing meta_existing : List (String × String)) :
    run tr en zh_existing meta_existing =
      { zh_next := (sortedEntries en).map
          (fun kv => (kv.1, zhValue tr zh_existing meta_existing kv.1 kv.2)),
        meta_next := sortedEntries en,
        reused_count :=
          ((sortedEntries en).filter
            (fun kv => !(isTranslatedKey zh_existing meta_existing kv.1 kv.2))).length,
        translated_count :=
          ((sortedEntries en).filter
            (fun kv => isTranslatedKey zh_existing meta_existing kv.1 kv.2)).length,
        calls :=
          ((sortedEntries en).filter
            (fun kv => isTranslatedKey zh_existing meta_existing kv.1 kv.2)).map Prod.fst } := by
  rw [run, runLoop_spec]
  simp [initialState]

/-! Association-list lemmas used to read values off the closed form. -/

theorem lookup_map_value (f : String → String → String) (k : String) :
    ∀ l : List (String × String),
      List.lookup k (l.map (fun kv => (kv.1, f kv.1 kv.2))) = (List.lookup k l).map (f k)
  | [] => rfl
  | (a, b) :: t => by
      simp only [List.map_cons, List.lookup_cons]
      cases h : k == a with
      | true => simp [h, eq_of_beq h]
      | false => simpa [h] using lookup_map_value f k t

theorem lookup_eq_none_iff (k : String) :
    ∀ l : List (String × String), List.lookup k l = none ↔ k ∉ l.map Prod.fst
  | [] => by simp
  | (a, b) :: t => by
      simp only [List.lookup_cons, List.map_cons, List.mem_cons]
      cases h : k == a with
      | true => simp [eq_of_beq h]
      | false =>
          have hne : k ≠ a := by
            intro heq; rw [heq] at h; simp at h
          simpa [hne] using lookup_eq_none_iff k t

theorem mem_of_lookup_eq_some {k v : String} :
    ∀ {l : List (String × String)}, List.lookup k l = some v → (k, v) ∈ l
  | [], h => by simp at h
  | (a, b) :: t, h => by
      rw [List.lookup_cons] at h
      cases hk : k == a with
      | true =>
          rw [hk] at h
          simp only [Option.some.injEq] at h
          simp [eq_of_beq hk, h]
      | false =>
          rw [hk] at h
          exact List.mem_cons_of_mem _ (mem_of_lookup_eq_some h)

theorem lookup_eq_some_of_mem {k v : String} :
    ∀ {l : List (String × String)}, (l.map Prod.fst).Nodup → (k, v) ∈ l →
      List.lookup k l = some v
  | [], _, h => by simp at h
  | (a, b) :: t, hnd, h => by
      rw [List.map_cons, List.nodup_cons] at hnd
      rcases List.mem_cons.mp h with heq | hmem
      · rw [Prod.mk.injEq] at heq
        simp [List.lookup_cons, heq.1, heq.2]
      · have hka : k ≠ a := fun heq =>
          hnd.1 (heq ▸ List.mem_map.mpr ⟨(k, v), hmem, rfl⟩)
        have hb : (k == a) = false := beq_eq_false_iff_ne.mpr hka
        simp [List.lookup_cons, hb, lookup_eq_some_of_mem hnd.2 hmem]

theorem sortedEntries_perm (en : List (String × String)) : List.Perm (sortedEntries en) en :=
  List.perm_insertionSort entryLE en

theorem sortedEntries_keys_nodup {en : List (String × String)}
    (hnd : (en.map Prod.fst).Nodup) : ((sortedEntries en).map Prod.fst).Nodup :=
  (((sortedEntries_perm en).map Prod.fst).nodup_iff).mpr hnd

theorem lookup_sortedEntries {en : List (String × String)}
    (hnd : (en.map Prod.fst).Nodup) (k : String) :
    List.lookup k (sortedEntries en) = List.lookup k en := by
  cases h : List.lookup k en with
  | none =>
      rw [lookup_eq_none_iff]
      intro hmem
      exact (lookup_eq_none_iff k en).mp h
        (((sortedEntries_perm en).map Prod.fst).mem_iff.mp hmem)
  | some v =>
      exact lookup_eq_some_of_mem (sortedEntries_keys_nodup hnd)
        ((sortedEntries_perm en).mem_iff.mpr (mem_of_lookup_eq_some h))

theorem value_eq_of_mem_nodup {l : List (String × String)} {k a b : String}
    (hnd : (l.map Prod.fst).Nodup) (ha : (k, a) ∈ l) (hb : (k, b) ∈ l) : a = b := by
  have h1 := lookup_eq_some_of_mem hnd ha
  have h2 := lookup_eq_some_of_mem hnd hb
  rw [h1] at h2
  exact (Option.some.injEq _ _).mp h2

/-! Per-key readings of a full run. -/

theorem run_lookup_zh {en : List (String × String)} (hnd : (en.map Prod.fst).Nodup)
    {k v : String} (hk : List.lookup k en = some v)
    (tr : String → String) (zh_existing meta_existing : List (String × String)) :
    List.lookup k (run tr en zh_existing meta_existing).zh_next =
      some (zhValue tr zh_existing meta_existing k v) := by
  rw [run_spec]
  show List.lookup k ((sortedEntries en).map
    (fun kv => (kv.1, zhValue tr zh_existing meta_existing kv.1 kv.2))) = _
  rw [lookup_map_value, lookup_sortedEntries hnd, hk]
  rfl

theorem run_lookup_meta {en : List (String × String)} (hnd : (en.map Prod.fst).Nodup)
    {k v : String} (hk : List.lookup k en = some v)
    (tr : String → String) (zh_existing meta_existing : List (String × String)) :
    List.lookup k (run tr en zh_existing meta_existing).meta_next = some v := by
  rw [run_spec]
  show List.lookup k (sortedEntries en) = _
  rw [lookup_sortedEntries hnd, hk]

theorem run_mem_calls_iff {en : List (String × String)} (hnd : (en.map Prod.fst).Nodup)
    {k v : String} (hk : List.lookup k en = some v)
    (tr : String → String) (zh_existing meta_existing : List (String × String)) :
    k ∈ (run tr en zh_existing meta_existing).calls ↔
      isTranslatedKey zh_existing meta_existing k v = true := by
  rw [run_spec]
  show k ∈ ((sortedEntries en).filter
    (fun kv => isTranslatedKey zh_existing meta_existing kv.1 kv.2)).map Prod.fst ↔ _
  have hmemv : (k, v) ∈ sortedEntries en :=
    (sortedEntries_perm en).mem_iff.mpr (mem_of_lookup_eq_some hk)
  constructor
  · intro hmem
    rcases List.mem_map.mp hmem with ⟨kv, hkv, hfst⟩
    rcases List.mem_filter.mp hkv with ⟨hkv_mem, hkv_p⟩
    have : kv = (k, kv.2) := by
      rw [← hfst]
    rw [this] at hkv_mem hkv_p
    have hv2 : kv.2 = v :=
      value_eq_of_mem_nodup (sortedEntries_keys_nodup hnd) hkv_mem hmemv
    rwa [hv2] at hkv_p
  · intro hp
    exact List.mem_map.mpr ⟨(k, v), List.mem_filter.mpr ⟨hmemv, hp⟩, rfl⟩

theorem length_filter_not_add {α : Type} (p : α → Bool) :
    ∀ l : List α, (l.filter (fun a => !(p a))).length + (l.filter p).length = l.length
  | [] => rfl
  | a :: t => by
      cases h : p a <;> simp [List.filter_cons, h, ← length_filter_not_add p t] <;> omega

/-! Facts about `pyStrip`, in particular that stripping is idempotent: the
retry loop of the client only hands out already-stripped non-empty strings,
and the reuse check of the next run strips them again. -/

theorem dropWhile_dropWhile_same {α : Type} (p : α → Bool) :
    ∀ l : List α, (l.dropWhile p).dropWhile p = l.dropWhile p
  | [] => rfl
  | a :: t => by
      cases h : p a <;> simp [List.dropWhile_cons, h, dropWhile_dropWhile_same p t]

theorem head?_dropWhile_false {α : Type} (p : α → Bool) :
    ∀ (l : List α) (a : α), (l.dropWhile p).head? = some a → p a = false
  | [], a, h => by simp at h
  | b :: t, a, h => by
      cases hb : p b with
      | true =>
          rw [List.dropWhile_cons, hb] at h
          simp only [if_true] at h
          exact head?_dropWhile_false p t a h
      | false =>
          rw [List.dropWhile_cons, hb] at h
          simp at h
          rw [← h]
          exact hb

theorem dropWhile_eq_self_of_head? {α : Type} (p : α → Bool) (l : List α)
    (h : ∀ a, l.head? = some a → p a = false) : l.dropWhile p = l := by
  cases l with
  | nil => rfl
  | cons a t => simp [List.dropWhile_cons, h a rfl]

theorem getLast?_dropWhile {α : Type} (p : α → Bool) :
    ∀ (l : List α) (a : α), (l.dropWhile p).getLast? = some a → l.getLast? = some a
  | [], a, h => by simp at h
  | b :: t, a, h => by
      cases hb : p b with
      | false =>
          rwa [List.dropWhile_cons, hb] at h
      | true =>
          rw [List.dropWhile_cons, hb] at h
          have ht := getLast?_dropWhile p t a (by simpa using h)
          cases t with
          | nil =>
              simp at ht
          | cons c s =>
              rwa [List.getLast?_cons_cons]

theorem stripChars_idem (l : List Char) : stripChars (stripChars l) = stripChars l := by
  unfold stripChars
  have step1 :
      ((((l.dropWhile Char.isWhitespace).reverse.dropWhile Char.isWhitespace).reverse).dropWhile
        Char.isWhitespace) =
      (((l.dropWhile Char.isWhitespace).reverse.dropWhile Char.isWhitespace).reverse) := by
    apply dropWhile_eq_self_of_head?
    intro a ha
    rw [List.head?_reverse] at ha
    have hx := getLast?_dropWhile Char.isWhitespace _ _ ha
    rw [List.getLast?_reverse] at hx
    exact head?_dropWhile_false Char.isWhitespace _ _ hx
  rw [step1, List.reverse_reverse, dropWhile_dropWhile_same]

theorem pyStrip_idem (s : String) : pyStrip (pyStrip s) = pyStrip s := by
  unfold pyStrip
  rw [show (String.mk (stripChars s.data)).data = stripChars s.data from rfl, stripChars_idem]

/-! Characterization of the translation client. -/

theorem strip_guard_spec {x s : String}
    (h : (if pyStrip x == "" then none else some (pyStrip x)) = some s) :
    pyStrip s = s ∧ s ≠ "" := by
  split at h
  · simp at h
  · rename_i hne
    rw [Option.some.injEq] at h
    subst h
    exact ⟨pyStrip_idem x, by simpa using hne⟩

theorem extractTranslated_spec {p : PyJson} {s : String}
    (h : extractTranslated p = some s) : pyStrip s = s ∧ s ≠ "" := by
  unfold extractTranslated at h
  cases p with
  | str t => simp at h
  | other => simp at h
  | list items =>
      cases items with
      | nil => simp at h
      | cons firstSeg restSegs =>
          cases firstSeg with
          | str t => simp at h
          | other => simp at h
          | list parts => exact strip_guard_spec h

theorem googleTranslateLoop_raised (text : String) (e : String) (rest : List AttemptOutcome) :
    googleTranslateLoop text (AttemptOutcome.raised e :: rest) = googleTranslateLoop text rest :=
  rfl

theorem googleTranslateLoop_payload_none {p : PyJson} (hx : extractTranslated p = none)
    (text : String) (rest : List AttemptOutcome) :
    googleTranslateLoop text (AttemptOutcome.payload p :: rest) = googleTranslateLoop text rest := by
  show (match extractTranslated p with
        | some translated => translated
        | none => googleTranslateLoop text rest) = googleTranslateLoop text rest
  rw [hx]

theorem googleTranslateLoop_payload_some {p : PyJson} {s : String}
    (hx : extractTranslated p = some s) (text : String) (rest : List AttemptOutcome) :
    googleTranslateLoop text (AttemptOutcome.payload p :: rest) = s := by
  show (match extractTranslated p with
        | some translated => translated
        | none => googleTranslateLoop text rest) = s
  rw [hx]

theorem googleTranslateLoop_failed {o : AttemptOutcome} (hf : attemptFails o = true)
    (text : String) (rest : List AttemptOutcome) :
    googleTranslateLoop text (o :: rest) = googleTranslateLoop text rest := by
  cases o with
  | raised e => rfl
  | payload p =>
      unfold attemptFails at hf
      rw [Option.isNone_iff_eq_none] at hf
      exact googleTranslateLoop_payload_none hf text rest

theorem googleTranslateLoop_clientLike (text : String) :
    ∀ attemptList : List AttemptOutcome,
      googleTranslateLoop text attemptList = text ∨
      (pyStrip (googleTranslateLoop text attemptList) = googleTranslateLoop text attemptList ∧
        googleTranslateLoop text attemptList ≠ "")
  | [] => Or.inl rfl
  | o :: rest => by
      cases o with
      | raised e =>
          rw [googleTranslateLoop_raised]
          exact googleTranslateLoop_clientLike text rest
      | payload p =>
          cases hx : extractTranslated p with
          | none =>
              rw [googleTranslateLoop_payload_none hx]
              exact googleTranslateLoop_clientLike text rest
          | some s =>
              rw [googleTranslateLoop_payload_some hx]
              exact Or.inr (extractTranslated_spec hx)

theorem google_translate_clientLike (attempts : Nat → AttemptOutcome) :
    ClientLike (google_translate_en_to_zh attempts) := by
  intro t
  unfold google_translate_en_to_zh
  split
  · exact Or.inl rfl
  · exact googleTranslateLoop_clientLike t _

theorem reuseCondition_iff (current_zh previous_source : Option String) (v : String) :
    reuseCondition current_zh previous_source v = true ↔
      (∃ cz, current_zh = some cz ∧ pyStrip cz ≠ "") ∧ previous_source = some v := by
  unfold reuseCondition
  cases current_zh with
  | none => simp
  | some cz => simp [Bool.and_eq_true]

theorem zhValue_strip_ne {tr : String → String} (hcl : ClientLike tr)
    (zh_existing meta_existing : List (String × String)) {k v : String}
    (hv : pyStrip v ≠ "") (hov : List.lookup k KEY_OVERRIDES = none) :
    pyStrip (zhValue tr zh_existing meta_existing k v) ≠ "" := by
  unfold zhValue
  rw [hov]
  cases hr : reuseCondition (List.lookup k zh_existing) (List.lookup k meta_existing) v with
  | true =>
      rcases (reuseCondition_iff _ _ _).mp hr with ⟨⟨cz, hcz, hczs⟩, _⟩
      simpa [hcz] using hczs
  | false =>
      simp only [if_false, Bool.false_eq_true]
      cases htr : tr v == "" with
      | true => simpa using hv
      | false =>
          simp only [if_false, Bool.false_eq_true]
          rcases hcl v with h | ⟨hs, _⟩
          · rwa [h]
          · rw [hs]
            exact beq_eq_false_iff_ne.mp htr

theorem zhValue_override {tr : String → String} {zh_existing meta_existing : List (String × String)}
    {k v ov : String} (hov : List.lookup k KEY_OVERRIDES = some ov) :
    zhValue tr zh_existing meta_existing k v = ov := by
  simp [zhValue, hov]

theorem zhValue_reuse {tr : String → String} {zh_existing meta_existing : List (String × String)}
    {k v : String} (hov : List.lookup k KEY_OVERRIDES = none)
    (hrc : reuseCondition (List.lookup k zh_existing) (List.lookup k meta_existing) v = true) :
    zhValue tr zh_existing meta_existing k v = (List.lookup k zh_existing).getD "" := by
  simp [zhValue, hov, hrc]

theorem zhValue_translate {tr : String → String} {zh_existing meta_existing : List (String × String)}
    {k v : String} (hov : List.lookup k KEY_OVERRIDES = none)
    (hrc : reuseCondition (List.lookup k zh_existing) (List.lookup k meta_existing) v = false) :
    zhValue tr zh_existing meta_existing k v = (if tr v == "" then v else tr v) := by
  simp [zhValue, hov, hrc]

theorem isTranslatedKey_override {zh_existing meta_existing : List (String × String)}
    {k v ov : String} (hov : List.lookup k KEY_OVERRIDES = some ov) :
    isTranslatedKey zh_existing meta_existing k v = false := by
  simp [isTranslatedKey, hov]

theorem isTranslatedKey_none {zh_existing meta_existing : List (String × String)}
    {k v : String} (hov : List.lookup k KEY_OVERRIDES = none) :
    isTranslatedKey zh_existing meta_existing k v =
      !(reuseCondition (List.lookup k zh_existing) (List.lookup k meta_existing) v) := by
  simp [isTranslatedKey, hov]

/-- After one run, every source key with non-blank value satisfies the reuse
check of the next run, and the next run keeps its value, whatever the
translation function of either run did. -/
theorem second_run_reuses {tr1 : String → String} (hcl : ClientLike tr1)
    {en : List (String × String)} (hnd : (en.map Prod.fst).Nodup)
    (zh_existing meta_existing : List (String × String)) {k v : String}
    (hk : List.lookup k en = some v) (hv : pyStrip v ≠ "") (tr2 : String → String) :
    isTranslatedKey (run tr1 en zh_existing meta_existing).zh_next
        (run tr1 en zh_existing meta_existing).meta_next k v = false ∧
    zhValue tr2 (run tr1 en zh_existing meta_existing).zh_next
        (run tr1 en zh_existing meta_existing).meta_next k v =
      zhValue tr1 zh_existing meta_existing k v := by
  have hzh := run_lookup_zh hnd hk tr1 zh_existing meta_existing
  have hme := run_lookup_meta hnd hk tr1 zh_existing meta_existing
  cases ho : List.lookup k KEY_OVERRIDES with
  | some ov => exact ⟨by simp [isTranslatedKey, ho], by simp [zhValue, ho]⟩
  | none =>
      have hw : pyStrip (zhValue tr1 zh_existing meta_existing k v) ≠ "" :=
        zhValue_strip_ne hcl _ _ hv ho
      have hrc : reuseCondition
          (List.lookup k (run tr1 en zh_existing meta_existing).zh_next)
          (List.lookup k (run tr1 en zh_existing meta_existing).meta_next) v = true := by
        rw [hzh, hme, reuseCondition_iff]
        exact ⟨⟨_, rfl, hw⟩, rfl⟩
      constructor
      · rw [isTranslatedKey_none ho, hrc]
        rfl
      · rw [zhValue_reuse ho hrc, hzh]
        rfl

theorem run_zh_keys (tr : String → String) (en zh_existing meta_existing : List (String × String)) :
    (run tr en zh_existing meta_existing).zh_next.map Prod.fst =
      (sortedEntries en).map Prod.fst := by
  rw [run_spec]
  show ((sortedEntries en).map _).map Prod.fst = _
  rw [List.map_map]
  exact List.map_congr_left (fun a _ => rfl)

theorem run_meta_keys (tr : String → String)
    (en zh_existing meta_existing : List (String × String)) :
    (run tr en zh_existing meta_existing).meta_next.map Prod.fst =
      (sortedEntries en).map Prod.fst := by
  rw [run_spec]

/-! The ten claims. -/

/-- C1: for every run of the sync engine, the key set of the output target
mapping and the key set of the output snapshot mapping each equal exactly
the key set of the source mapping, regardless of the existing target and
snapshot contents. -/
theorem claim_C1_key_set_equality (tr : String → String)
    (en zh_existing meta_existing : List (String × String)) :
    (∀ k, k ∈ (run tr en zh_existing meta_existing).zh_next.map Prod.fst ↔
      k ∈ en.map Prod.fst) ∧
    (∀ k, k ∈ (run tr en zh_existing meta_existing).meta_next.map Prod.fst ↔
      k ∈ en.map Prod.fst) := by
  constructor <;> intro k
  · rw [run_zh_keys]
    exact ((sortedEntries_perm en).map Prod.fst).mem_iff
  · rw [run_meta_keys]
    exact ((sortedEntries_perm en).map Prod.fst).mem_iff

/-- C2: for every key of the source mapping, after a run the output snapshot
value at that key equals the source value at that key (whatever branch
produced the target entry). -/
theorem claim_C2_snapshot_equals_source (tr : String → String)
    (en zh_existing meta_existing : List (String × String))
    (hnd : (en.map Prod.fst).Nodup) (k v : String) (hk : List.lookup k en = some v) :
    List.lookup k (run tr en zh_existing meta_existing).meta_next = some v :=
  run_lookup_meta hnd hk tr zh_existing meta_existing

theorem claim_C2_witness :
    (List.map Prod.fst [("a", "Hello")]).Nodup ∧
    List.lookup "a" [("a", "Hello")] = some "Hello" ∧
    List.lookup "a" (run (fun t => t) [("a", "Hello")] [] []).meta_next = some "Hello" :=
  ⟨by decide, by decide,
    claim_C2_snapshot_equals_source (fun t => t) [("a", "Hello")] [] []
      (by decide) "a" "Hello" (by decide)⟩

/-- C3: for every key of the override table that occurs in the source
mapping, the output target value is the override text — whatever the
existing target and snapshot contain, even when they would permit reuse —
and no translation call is made for that key. -/
theorem claim_C3_override_precedence (tr : String → String)
    (en zh_existing meta_existing : List (String × String)) (key ov : String)
    (hov : List.lookup key KEY_OVERRIDES = some ov) (hmem : key ∈ en.map Prod.fst) :
    List.lookup key (run tr en zh_existing meta_existing).zh_next = some ov ∧
    key ∉ (run tr en zh_existing meta_existing).calls := by
  constructor
  · rw [run_spec]
    show List.lookup key ((sortedEntries en).map _) = _
    rw [lookup_map_value]
    have hks : key ∈ (sortedEntries en).map Prod.fst :=
      ((sortedEntries_perm en).map Prod.fst).mem_iff.mpr hmem
    cases hl : List.lookup key (sortedEntries en) with
    | none => exact absurd hks ((lookup_eq_none_iff key _).mp hl)
    | some w =>
        show some (zhValue tr zh_existing meta_existing key w) = some ov
        rw [zhValue_override hov]
  · intro hc
    rw [run_spec] at hc
    rcases List.mem_map.mp hc with ⟨kv, hkv, hfst⟩
    rcases List.mem_filter.mp hkv with ⟨_, hp⟩
    rw [hfst] at hp
    rw [isTranslatedKey_override hov] at hp
    exact absurd hp (by simp)

theorem claim_C3_witness :
    List.lookup "common.save" KEY_OVERRIDES = some "保存" ∧
    "common.save" ∈ [("common.save", "Save")].map Prod.fst ∧
    (List.lookup "common.save" (run (fun t => t) [("common.save", "Save")]
        [("common.save", "XX")] [("common.save", "Save")]).zh_next = some "保存" ∧
      "common.save" ∉ (run (fun t => t) [("common.save", "Save")]
        [("common.save", "XX")] [("common.save", "Save")]).calls) :=
  ⟨by decide, by decide,
    claim_C3_override_precedence (fun t => t) [("common.save", "Save")]
      [("common.save", "XX")] [("common.save", "Save")] "common.save" "保存"
      (by decide) (by decide)⟩

/-- C7: if every network attempt fails — raising, or producing a payload
with no usable text — the translation client returns the original input
unchanged after its at most 3 attempts.  The client is a total function, so
no exception escapes it. -/
theorem claim_C7_translate_failure_returns_input (attempts : Nat → AttemptOutcome) (text : String)
    (h : ∀ i, i < 3 → attemptFails (attempts i) = true) :
    google_translate_en_to_zh attempts text = text := by
  unfold google_translate_en_to_zh
  split
  · rfl
  · rw [googleTranslateLoop_failed (h 0 (by omega)),
      googleTranslateLoop_failed (h 1 (by omega)),
      googleTranslateLoop_failed (h 2 (by omega))]
    rfl

theorem claim_C7_witness :
    (∀ i, i < 3 → attemptFails ((fun _ => AttemptOutcome.raised "boom") i) = true) ∧
    google_translate_en_to_zh (fun _ => AttemptOutcome.raised "boom") "Hello" = "Hello" :=
  ⟨fun _ _ => rfl,
    claim_C7_translate_failure_returns_input (fun _ => AttemptOutcome.raised "boom") "Hello"
      (fun _ _ => rfl)⟩

/-- C8: a key that reaches the translate step with a non-empty source value
receives a non-empty target value, whatever function the translation client
computes: an empty translation falls back to the source value. -/
theorem claim_C8_nonempty_target (tr : String → String)
    (en zh_existing meta_existing : List (String × String))
    (hnd : (en.map Prod.fst).Nodup) (k v : String) (hk : List.lookup k en = some v)
    (hv : v ≠ "") (hcalls : k ∈ (run tr en zh_existing meta_existing).calls) :
    ∃ w, List.lookup k (run tr en zh_existing meta_existing).zh_next = some w ∧ w ≠ "" := by
  have ht : isTranslatedKey zh_existing meta_existing k v = true :=
    (run_mem_calls_iff hnd hk tr zh_existing meta_existing).mp hcalls
  refine ⟨zhValue tr zh_existing meta_existing k v,
    run_lookup_zh hnd hk tr zh_existing meta_existing, ?_⟩
  cases ho : List.lookup k KEY_OVERRIDES with
  | some ov =>
      rw [isTranslatedKey_override ho] at ht
      exact absurd ht (by simp)
  | none =>
      rw [isTranslatedKey_none ho] at ht
      cases hrc : reuseCondition (List.lookup k zh_existing) (List.lookup k meta_existing) v with
      | true =>
          rw [hrc] at ht
          exact absurd ht (by simp)
      | false =>
          rw [zhValue_translate ho hrc]
          cases htr : tr v == "" with
          | true => simpa [htr] using hv
          | false =>
              simp only [htr, Bool.false_eq_true, if_false]
              exact beq_eq_false_iff_ne.mp htr

theorem claim_C8_witness :
    (List.map Prod.fst [("a", "Hi")]).Nodup ∧
    List.lookup "a" [("a", "Hi")] = some "Hi" ∧
    ("Hi" : String) ≠ "" ∧
    "a" ∈ (run (fun _ => "") [("a", "Hi")] [] []).calls ∧
    ∃ w, List.lookup "a" (run (fun _ => "") [("a", "Hi")] [] []).zh_next = some w ∧ w ≠ "" :=
  ⟨by decide, by decide, by decide, by decide,
    claim_C8_nonempty_target (fun _ => "") [("a", "Hi")] [] [] (by decide) "a" "Hi"
      (by decide) (by decide) (by decide)⟩

/-- C9: the serialized JSON text written for the new target document and
for the new snapshot document lists keys in ascending order (the entries
are emitted in list order, and the entry lists are key-sorted) and is
terminated by a trailing newline. -/
theorem claim_C9_save_sorted_newline (tr : String → String)
    (en zh_existing meta_existing : List (String × String)) :
    List.Sorted (fun a b : String => a ≤ b)
      ((run tr en zh_existing meta_existing).zh_next.map Prod.fst) ∧
    List.Sorted (fun a b : String => a ≤ b)
      ((run tr en zh_existing meta_existing).meta_next.map Prod.fst) ∧
    (∃ s, saveText (run tr en zh_existing meta_existing).zh_next = s ++ "\n") ∧
    (∃ s, saveText (run tr en zh_existing meta_existing).meta_next = s ++ "\n") := by
  have hsorted : List.Sorted (fun a b : String => a ≤ b) ((sortedEntries en).map Prod.fst) :=
    List.Pairwise.map Prod.fst (fun a b h => h) (List.sorted_insertionSort entryLE en)
  refine ⟨?_, ?_, ⟨jsonDumpsIndent2 _, rfl⟩, ⟨jsonDumpsIndent2 _, rfl⟩⟩
  · rw [run_zh_keys]
    exact hsorted
  · rw [run_meta_keys]
    exact hsorted

/-- C4 counterexample: with the source mapping `[("a", "")]` (an
empty-string value) the second run reproduces the first run's outputs but
counts the key as translated again — its stored target strips to the empty
string, so the reuse check fails — refuting "the second run's stats report
every key as reused (0 translated)". -/
theorem claim_C4_counterexample :
    (run (google_translate_en_to_zh (fun _ => AttemptOutcome.raised "e")) [("a", "")]
        (run (google_translate_en_to_zh (fun _ => AttemptOutcome.raised "e")) [("a", "")]
          [] []).zh_next
        (run (google_translate_en_to_zh (fun _ => AttemptOutcome.raised "e")) [("a", "")]
          [] []).meta_next).zh_next =
      (run (google_translate_en_to_zh (fun _ => AttemptOutcome.raised "e")) [("a", "")]
        [] []).zh_next ∧
    ¬ (run (google_translate_en_to_zh (fun _ => AttemptOutcome.raised "e")) [("a", "")]
        (run (google_translate_en_to_zh (fun _ => AttemptOutcome.raised "e")) [("a", "")]
          [] []).zh_next
        (run (google_translate_en_to_zh (fun _ => AttemptOutcome.raised "e")) [("a", "")]
          [] []).meta_next).translated_count = 0 := by
  decide

/-- C4 amended: if every source value is non-blank (non-empty after
stripping), then a second run over the first run's outputs reproduces the
target and snapshot exactly and reuses every key, translating none — for
any network behavior of the translation client in either run.  (Keys with
blank source values are re-"translated" each run, though that translation
is a no-op and the outputs still coincide.) -/
theorem claim_C4_idempotence_amended
    (attempts1 attempts2 : Nat → AttemptOutcome)
    (en zh_existing meta_existing : List (String × String))
    (hnd : (en.map Prod.fst).Nodup)
    (hblank : ∀ kv ∈ en, pyStrip kv.2 ≠ "") :
    (run (google_translate_en_to_zh attempts2) en
        (run (google_translate_en_to_zh attempts1) en zh_existing meta_existing).zh_next
        (run (google_translate_en_to_zh attempts1) en zh_existing meta_existing).meta_next).zh_next =
      (run (google_translate_en_to_zh attempts1) en zh_existing meta_existing).zh_next ∧
    (run (google_translate_en_to_zh attempts2) en
        (run (google_translate_en_to_zh attempts1) en zh_existing meta_existing).zh_next
        (run (google_translate_en_to_zh attempts1) en zh_existing meta_existing).meta_next).meta_next =
      (run (google_translate_en_to_zh attempts1) en zh_existing meta_existing).meta_next ∧
    (run (google_translate_en_to_zh attempts2) en
        (run (google_translate_en_to_zh attempts1) en zh_existing meta_existing).zh_next
        (run (google_translate_en_to_zh attempts1) en zh_existing meta_existing).meta_next).translated_count
      = 0 ∧
    (run (google_translate_en_to_zh attempts2) en
        (run (google_translate_en_to_zh attempts1) en zh_existing meta_existing).zh_next
        (run (google_translate_en_to_zh attempts1) en zh_existing meta_existing).meta_next).reused_count
      = en.length := by
  set tr1 := google_translate_en_to_zh attempts1
  set tr2 := google_translate_en_to_zh attempts2
  set R := run tr1 en zh_existing meta_existing
  have hkey : ∀ kv ∈ sortedEntries en,
      isTranslatedKey R.zh_next R.meta_next kv.1 kv.2 = false ∧
      zhValue tr2 R.zh_next R.meta_next kv.1 kv.2 =
        zhValue tr1 zh_existing meta_existing kv.1 kv.2 := by
    intro kv hmem
    have hmem' : kv ∈ en := (sortedEntries_perm en).mem_iff.mp hmem
    have hk : List.lookup kv.1 en = some kv.2 := lookup_eq_some_of_mem hnd hmem'
    exact second_run_reuses (google_translate_clientLike attempts1) hnd
      zh_existing meta_existing hk (hblank kv hmem') tr2
  have e1 : R.zh_next = (sortedEntries en).map
      (fun kv => (kv.1, zhValue tr1 zh_existing meta_existing kv.1 kv.2)) := by
    show (run tr1 en zh_existing meta_existing).zh_next = _
    rw [run_spec]
  have e2 : R.meta_next = sortedEntries en := by
    show (run tr1 en zh_existing meta_existing).meta_next = _
    rw [run_spec]
  have hzh2 : (run tr2 en R.zh_next R.meta_next).zh_next = (sortedEntries en).map
      (fun kv => (kv.1, zhValue tr2 R.zh_next R.meta_next kv.1 kv.2)) := by
    rw [run_spec]
  have hmeta2 : (run tr2 en R.zh_next R.meta_next).meta_next = sortedEntries en := by
    rw [run_spec]
  have htc2 : (run tr2 en R.zh_next R.meta_next).translated_count =
      ((sortedEntries en).filter
        (fun kv => isTranslatedKey R.zh_next R.meta_next kv.1 kv.2)).length := by
    rw [run_spec]
  have hru2 : (run tr2 en R.zh_next R.meta_next).reused_count =
      ((sortedEntries en).filter
        (fun kv => !(isTranslatedKey R.zh_next R.meta_next kv.1 kv.2))).length := by
    rw [run_spec]
  have hfilter : (sortedEntries en).filter
      (fun kv => isTranslatedKey R.zh_next R.meta_next kv.1 kv.2) = [] :=
    List.filter_eq_nil_iff.mpr (fun kv hmem => by simp [(hkey kv hmem).1])
  refine ⟨?_, ?_, ?_, ?_⟩
  · rw [hzh2, List.map_congr_left (fun kv hmem => ?_), ← e1]
    rw [(hkey kv hmem).2]
  · rw [hmeta2, e2]
  · rw [htc2, hfilter]
    rfl
  · rw [hru2, List.filter_eq_self.mpr (fun kv hmem => ?_)]
    · exact (sortedEntries_perm en).length_eq
    · rw [(hkey kv hmem).1]
      rfl

theorem claim_C4_witness :
    (List.map Prod.fst [("a", "Hello")]).Nodup ∧
    (∀ kv ∈ [("a", "Hello")], pyStrip (Prod.snd kv) ≠ "") ∧
    ((run (google_translate_en_to_zh (fun _ => AttemptOutcome.raised "f")) [("a", "Hello")]
        (run (google_translate_en_to_zh (fun _ => AttemptOutcome.raised "e")) [("a", "Hello")]
          [] []).zh_next
        (run (google_translate_en_to_zh (fun _ => AttemptOutcome.raised "e")) [("a", "Hello")]
          [] []).meta_next).zh_next =
      (run (google_translate_en_to_zh (fun _ => AttemptOutcome.raised "e")) [("a", "Hello")]
        [] []).zh_next ∧
    (run (google_translate_en_to_zh (fun _ => AttemptOutcome.raised "f")) [("a", "Hello")]
        (run (google_translate_en_to_zh (fun _ => AttemptOutcome.raised "e")) [("a", "Hello")]
          [] []).zh_next
        (run (google_translate_en_to_zh (fun _ => AttemptOutcome.raised "e")) [("a", "Hello")]
          [] []).meta_next).meta_next =
      (run (google_translate_en_to_zh (fun _ => AttemptOutcome.raised "e")) [("a", "Hello")]
        [] []).meta_next ∧
    (run (google_translate_en_to_zh (fun _ => AttemptOutcome.raised "f")) [("a", "Hello")]
        (run (google_translate_en_to_zh (fun _ => AttemptOutcome.raised "e")) [("a", "Hello")]
          [] []).zh_next
        (run (google_translate_en_to_zh (fun _ => AttemptOutcome.raised "e")) [("a", "Hello")]
          [] []).meta_next).translated_count = 0 ∧
    (run (google_translate_en_to_zh (fun _ => AttemptOutcome.raised "f")) [("a", "Hello")]
        (run (google_translate_en_to_zh (fun _ => AttemptOutcome.raised "e")) [("a", "Hello")]
          [] []).zh_next
        (run (google_translate_en_to_zh (fun _ => AttemptOutcome.raised "e")) [("a", "Hello")]
          [] []).meta_next).reused_count = List.length [("a", "Hello")]) :=
  ⟨by decide, by decide,
    claim_C4_idempotence_amended (fun _ => AttemptOutcome.raised "e")
      (fun _ => AttemptOutcome.raised "f") [("a", "Hello")] [] [] (by decide) (by decide)⟩

/-- C5 counterexample: the key `common.save` is in the override table; with
source value `Save v2` and a snapshot recording `Save v1` the source value
differs from the snapshot, yet the engine makes no translation call for the
key (the override wins), refuting the claim as stated. -/
theorem claim_C5_counterexample :
    List.lookup "common.save" [("common.save", "Save v2")] = some "Save v2" ∧
    List.lookup "common.save" [("common.save", "Save v1")] = some "Save v1" ∧
    ("Save v2" : String) ≠ "Save v1" ∧
    ¬ "common.save" ∈ (run (google_translate_en_to_zh (fun _ => AttemptOutcome.raised "e"))
        [("common.save", "Save v2")] [] [("common.save", "Save v1")]).calls := by
  decide

/-- C5 amended: for every key of the source mapping that is **not in the
override table** and whose source value differs from the snapshot's recorded
value, the engine invokes the translation client and writes the translation
result (with empty-result fallback), never the reused existing target
value. -/
theorem claim_C5_change_detection_amended (tr : String → String)
    (en zh_existing meta_existing : List (String × String))
    (hnd : (en.map Prod.fst).Nodup) (k v : String) (hk : List.lookup k en = some v)
    (hov : List.lookup k KEY_OVERRIDES = none)
    (hdiff : List.lookup k meta_existing ≠ some v) :
    k ∈ (run tr en zh_existing meta_existing).calls ∧
    List.lookup k (run tr en zh_existing meta_existing).zh_next =
      some (if tr v == "" then v else tr v) := by
  have hrc : reuseCondition (List.lookup k zh_existing) (List.lookup k meta_existing) v
      = false := by
    cases hx : reuseCondition (List.lookup k zh_existing) (List.lookup k meta_existing) v with
    | false => rfl
    | true => exact absurd ((reuseCondition_iff _ _ _).mp hx).2 hdiff
  have ht : isTranslatedKey zh_existing meta_existing k v = true := by
    rw [isTranslatedKey_none hov, hrc]
    rfl
  exact ⟨(run_mem_calls_iff hnd hk tr zh_existing meta_existing).mpr ht,
    by rw [run_lookup_zh hnd hk tr zh_existing meta_existing, zhValue_translate hov hrc]⟩

theorem claim_C5_witness :
    (List.map Prod.fst [("a", "New")]).Nodup ∧
    List.lookup "a" [("a", "New")] = some "New" ∧
    List.lookup "a" KEY_OVERRIDES = none ∧
    List.lookup "a" [("a", "Old")] ≠ some "New" ∧
    ("a" ∈ (run (fun _ => "新") [("a", "New")] [("a", "旧")] [("a", "Old")]).calls ∧
      List.lookup "a" (run (fun _ => "新") [("a", "New")] [("a", "旧")] [("a", "Old")]).zh_next =
        some (if (fun _ : String => "新") "New" == "" then "New"
          else (fun _ : String => "新") "New")) :=
  ⟨by decide, by decide, by decide, by decide,
    claim_C5_change_detection_amended (fun _ => "新") [("a", "New")] [("a", "旧")] [("a", "Old")]
      (by decide) "a" "New" (by decide) (by decide) (by decide)⟩

/-- C6 counterexample: existing target `" "` is a non-empty string and the
snapshot matches the source, so the claim as stated demands reuse; the code
tests `current_zh.strip()` instead, so it takes the translate branch: the
translation client is invoked and the target value is not the existing
`" "`. -/
theorem claim_C6_counterexample :
    (" " : String) ≠ "" ∧
    List.lookup "a" [("a", " ")] = some " " ∧
    List.lookup "a" [("a", "Hello")] = some "Hello" ∧
    ¬ (List.lookup "a" (run (google_translate_en_to_zh (fun _ => AttemptOutcome.raised "e"))
          [("a", "Hello")] [("a", " ")] [("a", "Hello")]).zh_next = some " " ∧
        ¬ "a" ∈ (run (google_translate_en_to_zh (fun _ => AttemptOutcome.raised "e"))
          [("a", "Hello")] [("a", " ")] [("a", "Hello")]).calls) := by
  decide

/-- C6 amended: for every key not in the override table, the engine reuses
the existing target value (and makes no translation call) if and only if
the existing target value is **non-blank — non-empty after stripping
whitespace** — and the existing snapshot value equals the current source
value exactly; otherwise it invokes the translation client and writes the
translation result. -/
theorem claim_C6_reuse_condition_amended (tr : String → String)
    (en zh_existing meta_existing : List (String × String))
    (hnd : (en.map Prod.fst).Nodup) (k v : String) (hk : List.lookup k en = some v)
    (hov : List.lookup k KEY_OVERRIDES = none) :
    ((∃ cz, List.lookup k zh_existing = some cz ∧ pyStrip cz ≠ "") ∧
        List.lookup k meta_existing = some v →
      List.lookup k (run tr en zh_existing meta_existing).zh_next =
          List.lookup k zh_existing ∧
        ¬ k ∈ (run tr en zh_existing meta_existing).calls) ∧
    (¬ ((∃ cz, List.lookup k zh_existing = some cz ∧ pyStrip cz ≠ "") ∧
        List.lookup k meta_existing = some v) →
      k ∈ (run tr en zh_existing meta_existing).calls ∧
      List.lookup k (run tr en zh_existing meta_existing).zh_next =
        some (if tr v == "" then v else tr v)) := by
  constructor
  · intro hcond
    have hrc : reuseCondition (List.lookup k zh_existing) (List.lookup k meta_existing) v
        = true := (reuseCondition_iff _ _ _).mpr hcond
    have ht : isTranslatedKey zh_existing meta_existing k v = false := by
      rw [isTranslatedKey_none hov, hrc]
      rfl
    constructor
    · rw [run_lookup_zh hnd hk tr zh_existing meta_existing, zhValue_reuse hov hrc]
      rcases hcond with ⟨⟨cz, hcz, _⟩, _⟩
      rw [hcz]
      rfl
    · intro hc
      rw [run_mem_calls_iff hnd hk tr zh_existing meta_existing] at hc
      rw [ht] at hc
      exact absurd hc (by simp)
  · intro hcond
    have hrc : reuseCondition (List.lookup k zh_existing) (List.lookup k meta_existing) v
        = false := by
      cases hx : reuseCondition (List.lookup k zh_existing) (List.lookup k meta_existing) v with
      | false => rfl
      | true => exact absurd ((reuseCondition_iff _ _ _).mp hx) hcond
    have ht : isTranslatedKey zh_existing meta_existing k v = true := by
      rw [isTranslatedKey_none hov, hrc]
      rfl
    exact ⟨(run_mem_calls_iff hnd hk tr zh_existing meta_existing).mpr ht,
      by rw [run_lookup_zh hnd hk tr zh_existing meta_existing, zhValue_translate hov hrc]⟩

theorem claim_C6_witness :
    (List.map Prod.fst [("a", "Hello")]).Nodup ∧
    List.lookup "a" [("a", "Hello")] = some "Hello" ∧
    List.lookup "a" KEY_OVERRIDES = none ∧
    (List.lookup "a" (run (google_translate_en_to_zh (fun _ => AttemptOutcome.raised "e"))
        [("a", "Hello")] [("a", "你好")] [("a", "Hello")]).zh_next =
      List.lookup "a" [("a", "你好")] ∧
      ¬ "a" ∈ (run (google_translate_en_to_zh (fun _ => AttemptOutcome.raised "e"))
        [("a", "Hello")] [("a", "你好")] [("a", "Hello")]).calls) :=
  ⟨by decide, by decide, by decide,
    (claim_C6_reuse_condition_amended
        (google_translate_en_to_zh (fun _ => AttemptOutcome.raised "e"))
        [("a", "Hello")] [("a", "你好")] [("a", "Hello")] (by decide) "a" "Hello"
        (by decide) (by decide)).1
      ⟨⟨"你好", by decide, by decide⟩, by decide⟩⟩

/-- C10: after every run, the reused count plus the translated count equals
the number of keys of the source mapping. -/
theorem claim_C10_stats_partition (tr : String → String)
    (en zh_existing meta_existing : List (String × String)) :
    (run tr en zh_existing meta_existing).reused_count +
      (run tr en zh_existing meta_existing).translated_count = en.length := by
  rw [run_spec]
  show ((sortedEntries en).filter _).length + ((sortedEntries en).filter _).length = en.length
  rw [length_filter_not_add]
  exact (sortedEntries_perm en).length_eq

end ZhSync
